import Mathlib

/-!
Verification of the RustLSP JSON-RPC endpoint core.

This file gives a shallow embedding, in Lean, of the code under
`src/src/lsp_transport.rs` and `src/subcrates/melnorme_json_rpc/src/`
(`jsonrpc_objects.rs`, `jsonrpc.rs`, `service_util.rs`), and proves the
frozen specification claims against it.

Embedding conventions:

* JSON values are modelled after the `serde_json` 0.x `Value` enum used by
  the source, including its separate `I64`/`U64` integer variants (the
  library parses a nonnegative JSON integer as `U64` and a negative one as
  `I64`).  JSON objects are `BTreeMap<String, Value>` in the library; we
  model an object as its ordered entry list and only ever access it through
  key lookup, which is all the source does.
* `serde_json::from_str` / `to_string` (the external JSON text codec) are
  not part of this repository; the text layer is modelled at the value
  boundary: a parsed inbound text is an `Except String Json` (`.error e`
  when the text is not valid JSON, with `e` the library diagnostic), and
  serialization produces the `Json` value whose text form the library would
  emit.  Reading an emitted request text back through the library yields
  its object entries in key order, which is how `serializeRequest` lists
  them.
* The transport framer works on the byte stream; bytes are modelled as
  characters (the header grammar is ASCII, and payload bytes are carried
  through unchanged).
* Stateful completion (`ResponseCompletable`, the output agent) is
  modelled by explicit data flow: `complete` returns the argument handed
  to the one-shot `on_response` callback, and the `Endpoint` model returns
  the list of responses submitted to the output agent.
-/

namespace RustLSP

/-- JSON value, after the `serde_json` 0.x `Value` enum used by the source:
`Null`, `Bool`, `I64`, `U64`, `F64`, `String`, `Array`, `Object`.
The `f64` payload is the raw IEEE-754 bit pattern; no operation embedded
here inspects it. -/
inductive Json where
  | null : Json
  | bool (b : Bool) : Json
  | i64 (n : Int) : Json
  | u64 (n : Nat) : Json
  | f64 (bits : Nat) : Json
  | str (s : String) : Json
  | arr (elems : List Json) : Json
  | obj (entries : List (String × Json)) : Json

/-- JSON object: the entry list of a `serde_json` `Map<String, Value>`
(a `BTreeMap`, so entries are in key order after a text round trip). -/
def JsonObject := List (String × Json)

/-- Key lookup in a JSON object (the `BTreeMap::get` / `remove` access the
source performs; removal versus lookup is observationally equal here since
each key is consulted once). -/
def JsonObject.get? : JsonObject → String → Option Json
  | [], _ => none
  | (k, v) :: rest, key => if k = key then some v else JsonObject.get? rest key

/-- `RpcId` from jsonrpc_objects.rs lines 24-25. -/
inductive RpcId where
  | Number (n : Nat) : RpcId
  | String (s : String) : RpcId
  | Null : RpcId
deriving DecidableEq

/-- `RequestParams` from jsonrpc_objects.rs lines 37-42. -/
inductive RequestParams where
  | Object (obj : JsonObject) : RequestParams
  | Array (arr : List Json) : RequestParams
  | None : RequestParams

/-- `JsonRpcRequest` from jsonrpc_objects.rs lines 27-35 (the `jsonrpc`
field is omitted in the struct and fixed to "2.0" on the wire). -/
structure JsonRpcRequest where
  id : Option RpcId
  method : String
  params : RequestParams

/-- `RpcError` from jsonrpc_objects.rs lines 61-66. -/
structure RpcError where
  code : Int
  message : String
  data : Option Json

/-- `ResponseResult` from jsonrpc_objects.rs lines 55-59. -/
inductive ResponseResult where
  | Result (value : Json) : ResponseResult
  | Error (error : RpcError) : ResponseResult

/-- `JsonRpcResponse` from jsonrpc_objects.rs lines 47-53. -/
structure JsonRpcResponse where
  id : RpcId
  result_or_error : ResponseResult

/-- `JsonRpcResponse::new_error` from jsonrpc_objects.rs lines 93-95. -/
def JsonRpcResponse.new_error (id : RpcId) (error : RpcError) : JsonRpcResponse :=
  { id := id, result_or_error := ResponseResult.Error error }

/-- `error_JSON_RPC_ParseError` from jsonrpc_objects.rs lines 111-113. -/
def error_JSON_RPC_ParseError (error : String) : RpcError :=
  { code := -32700, message := "Invalid JSON was received by the server: " ++ error, data := none }

/-- `error_JSON_RPC_InvalidRequest` from jsonrpc_objects.rs lines 114-116. -/
def error_JSON_RPC_InvalidRequest (error : String) : RpcError :=
  { code := -32600, message := "The JSON sent is not a valid Request object: " ++ error, data := none }

/-- `error_JSON_RPC_MethodNotFound` from jsonrpc_objects.rs lines 117-119. -/
def error_JSON_RPC_MethodNotFound : RpcError :=
  { code := -32601, message := "The method does not exist / is not available.", data := none }

/-- `error_JSON_RPC_InvalidParams` from jsonrpc_objects.rs lines 120-122. -/
def error_JSON_RPC_InvalidParams (error : String) : RpcError :=
  { code := -32602, message := "Invalid method parameter(s): " ++ error, data := none }

/-- `impl serde::Serialize for RpcId`, jsonrpc_objects.rs lines 157-167:
`Null` serializes as JSON null, `Number` via `serialize_u64`, `String` as a
JSON string. -/
def RpcId.serialize : RpcId → Json
  | RpcId.Null => Json.null
  | RpcId.Number n => Json.u64 n
  | RpcId.String s => Json.str s

/-- `RequestParams::into_value`, jsonrpc_objects.rs lines 182-195.  The
`Serialize` impl at lines 170-180 emits the same JSON value (object, array,
or null respectively). -/
def RequestParams.into_value : RequestParams → Json
  | RequestParams.Object object => Json.obj object
  | RequestParams.Array array => Json.arr array
  | RequestParams.None => Json.null

/-- `impl serde::Serialize for JsonRpcRequest`, jsonrpc_objects.rs lines
197-215: emits `jsonrpc:"2.0"`, then `id` only when present, then `method`,
then `params`.  The value shown here is the object obtained by reading the
emitted text back through the JSON library, whose object map is ordered by
key (`id` < `jsonrpc` < `method` < `params`). -/
def JsonRpcRequest.serialize (r : JsonRpcRequest) : Json :=
  match r.id with
  | none =>
    Json.obj [("jsonrpc", Json.str "2.0"), ("method", Json.str r.method),
      ("params", r.params.into_value)]
  | some i =>
    Json.obj [("id", i.serialize), ("jsonrpc", Json.str "2.0"),
      ("method", Json.str r.method), ("params", r.params.into_value)]

/-- Modelled from the spec: the helper module `json_util` (the repository
file src/subcrates/melnorme_json_rpc/src/json_util.rs is not under src/;
only its callers are).  Per spec section 2 it provides "deserialization
helpers that extract typed fields from a JSON object with precise
missing/wrong type error messages", and section 4.2 fixes the messages
used here.  `as_Object` requires the value to be a JSON object; the error
constructor for request parsing is `error_JSON_RPC_InvalidRequest`
(jsonrpc_objects.rs lines 261-267). -/
def JsonRequestDeserializerHelper.as_Object (value : Json) : Except RpcError JsonObject :=
  match value with
  | Json.obj o => Except.ok o
  | _ => Except.error (error_JSON_RPC_InvalidRequest "Value is not an Object.")

/-- Modelled from the spec: `json_util` helper `obtain_Value` — extract the
value at the given key, failing with "Property `key` is missing." when the
key is absent (spec section 4.2, message list). -/
def JsonRequestDeserializerHelper.obtain_Value (map : JsonObject) (key : String) :
    Except RpcError Json :=
  match map.get? key with
  | some v => Except.ok v
  | none => Except.error (error_JSON_RPC_InvalidRequest ("Property `" ++ key ++ "` is missing."))

/-- Modelled from the spec: `json_util` helper `obtain_String` — extract
the value at the given key and require it to be a JSON string; missing key
gives "Property `key` is missing.", a null value gives "Value `null` is not
a String." (spec section 4.2 message list; the message text for a non-null
non-string value is not fixed by the spec and is not relied upon). -/
def JsonRequestDeserializerHelper.obtain_String (map : JsonObject) (key : String) :
    Except RpcError String :=
  match map.get? key with
  | none => Except.error (error_JSON_RPC_InvalidRequest ("Property `" ++ key ++ "` is missing."))
  | some (Json.str s) => Except.ok s
  | some Json.null => Except.error (error_JSON_RPC_InvalidRequest "Value `null` is not a String.")
  | some _ => Except.error (error_JSON_RPC_InvalidRequest "Value is not a String.")

/-- `parse_jsonrpc_id` from jsonrpc_objects.rs lines 318-330: missing or
JSON null id gives `none`; an `I64` value is cast `as u64` (two's
complement wraparound, the FIXME-marked truncation in the source); a `U64`
or string id is taken as is; anything else is an InvalidRequest error. -/
def parse_jsonrpc_id (id : Option Json) : Except RpcError (Option RpcId) :=
  match id with
  | none => Except.ok none
  | some (Json.i64 number) => Except.ok (some (RpcId.Number ((number % (2 ^ 64 : Int)).toNat)))
  | some (Json.u64 number) => Except.ok (some (RpcId.Number number))
  | some (Json.str string) => Except.ok (some (RpcId.String string))
  | some Json.null => Except.ok none
  | some _ => Except.error (error_JSON_RPC_InvalidRequest "Property `id` not a String or integer.")

/-- `parse_jsonrpc_params` from jsonrpc_objects.rs lines 309-316 (a
`GResult`, so the error is a plain message, wrapped into InvalidRequest by
the caller). -/
def parse_jsonrpc_params (params : Json) : Except String RequestParams :=
  match params with
  | Json.obj object => Except.ok (RequestParams.Object object)
  | Json.arr array => Except.ok (RequestParams.Array array)
  | Json.null => Except.ok RequestParams.None
  | _ => Except.error "Property `params` not an Object, Array, or null."

/-- `parse_jsonrpc_request_jsonObject` from jsonrpc_objects.rs lines
288-307: check `jsonrpc` equals "2.0", then extract `id`, `method`,
`params` in that order. -/
def parse_jsonrpc_request_jsonObject (request_map : JsonObject) :
    Except RpcError JsonRpcRequest := do
  let jsonrpc ← JsonRequestDeserializerHelper.obtain_String request_map "jsonrpc"
  if jsonrpc ≠ "2.0" then
    throw (error_JSON_RPC_InvalidRequest "Property `jsonrpc` is not \"2.0\". ")
  else
    let id ← parse_jsonrpc_id (request_map.get? "id")
    let method ← JsonRequestDeserializerHelper.obtain_String request_map "method"
    let params_value ← JsonRequestDeserializerHelper.obtain_Value request_map "params"
    match parse_jsonrpc_params params_value with
    | Except.error error => throw (error_JSON_RPC_InvalidRequest error)
    | Except.ok params => return { id := id, method := method, params := params }

/-- `parse_jsonrpc_request` from jsonrpc_objects.rs lines 272-286.  The
initial `serde_json::from_str` call into the external JSON library is
modelled by the argument: `.ok value` when the message text parses to
`value`, `.error e` when it is not valid JSON, `e` being the library
diagnostic that the source appends to the ParseError message. -/
def parse_jsonrpc_request (parsed_message : Except String Json) :
    Except RpcError JsonRpcRequest :=
  match parsed_message with
  | Except.error error => Except.error (error_JSON_RPC_ParseError error)
  | Except.ok json_value => do
    let json_request_obj ← JsonRequestDeserializerHelper.as_Object json_value
    parse_jsonrpc_request_jsonObject json_request_obj

/-- `ServiceError` from service_util.rs lines 19-23: an unsigned 32-bit
code, a message, and a typed data payload. -/
structure ServiceError (DATA : Type) where
  code : Nat
  message : String
  data : DATA

/-- `ServiceResult<RETURN_VALUE, ERROR_DATA>` from service_util.rs line 25
(a type alias in the source, hence reducible here). -/
abbrev ServiceResult (RETURN_VALUE ERROR_DATA : Type) :=
  Except (ServiceError ERROR_DATA) RETURN_VALUE

/-- `ResponseCompletable::complete`, jsonrpc.rs lines 159-177, as the value
handed to the one-shot `on_response` callback: `none` when the callback is
invoked with `None` (notification completion, nothing written), `some r`
when it is invoked with `Some(r)` (the `Endpoint` callback, jsonrpc.rs
lines 97-104, then submits the serialized response as a write task).
`id` is the `Option<RpcId>` the completable was created with. -/
def ResponseCompletable.complete (id : Option RpcId) (rpc_result : Option ResponseResult) :
    Option JsonRpcResponse :=
  match rpc_result with
  | some rpc_result =>
    match id with
    | some id => some { id := id, result_or_error := rpc_result }
    | none =>
      some (JsonRpcResponse.new_error RpcId.Null
        (error_JSON_RPC_InvalidRequest "Property `id` not provided for request."))
  | none => none

/-- `ResponseCompletable::complete_with_error`, jsonrpc.rs lines 179-181. -/
def ResponseCompletable.complete_with_error (id : Option RpcId) (error : RpcError) :
    Option JsonRpcResponse :=
  ResponseCompletable.complete id (some (ResponseResult.Error error))

/-- `invoke_method_with_fn`, jsonrpc.rs lines 211-258.  The generic serde
bounds are modelled by explicit codec functions: `deserializeParams` stands
for `serde_json::from_value::<PARAMS>` (`.error e` carries the decoder
diagnostic the source formats into InvalidParams), `serializeRet` and
`serializeErrData` stand for `serde_json::to_value` on `RET` and
`RET_ERROR`.  The `u32` service-error code is widened `as i64`
(value-preserving). -/
def invoke_method_with_fn {PARAMS RET RET_ERROR : Type}
    (deserializeParams : Json → Except String PARAMS)
    (serializeRet : RET → Json) (serializeErrData : RET_ERROR → Json)
    (params : RequestParams)
    (method_fn : PARAMS → Option (ServiceResult RET RET_ERROR)) :
    Option ResponseResult :=
  match deserializeParams params.into_value with
  | Except.error error => some (ResponseResult.Error (error_JSON_RPC_InvalidParams error))
  | Except.ok params =>
    match method_fn params with
    | none => none
    | some (Except.ok ret) => some (ResponseResult.Result (serializeRet ret))
    | some (Except.error error) =>
      some (ResponseResult.Error
        { code := (error.code : Int), message := error.message,
          data := some (serializeErrData error.data) })

/-- `ResponseCompletable::sync_handle_request`, jsonrpc.rs lines 183-195:
wrap the typed handler so it always yields `Some` service result, run
`invoke_method_with_fn`, and complete with its outcome. -/
def ResponseCompletable.sync_handle_request {PARAMS RET RET_ERROR : Type}
    (id : Option RpcId)
    (deserializeParams : Json → Except String PARAMS)
    (serializeRet : RET → Json) (serializeErrData : RET_ERROR → Json)
    (params : RequestParams)
    (method_fn : PARAMS → ServiceResult RET RET_ERROR) :
    Option JsonRpcResponse :=
  ResponseCompletable.complete id
    (invoke_method_with_fn deserializeParams serializeRet serializeErrData params
      (fun params => some (method_fn params)))

/-- `ResponseCompletable::sync_handle_notification`, jsonrpc.rs lines
197-207: wrap the void typed handler so it yields `None` after running (at
`RET = RET_ERROR = ()`, whose serde encodings are JSON null), run
`invoke_method_with_fn`, and complete with its outcome. -/
def ResponseCompletable.sync_handle_notification {PARAMS : Type}
    (id : Option RpcId)
    (deserializeParams : Json → Except String PARAMS)
    (params : RequestParams)
    (method_fn : PARAMS → Unit) :
    Option JsonRpcResponse :=
  ResponseCompletable.complete id
    (invoke_method_with_fn deserializeParams (fun _ : Unit => Json.null)
      (fun _ : Unit => Json.null) params
      (fun params => (fun _ => none) (method_fn params)))

/-- `Endpoint::handle_message` composed with `Endpoint::handle_request`,
jsonrpc.rs lines 81-108, as the list of responses submitted to the output
agent for one inbound message.  On a parse failure an error response with
id `Null` is submitted (lines 86-90); on success a `ResponseCompletable`
carrying the request id is handed to the request handler, whose eventual
`complete` call is abstracted by `handler_result`: the `Option
ResponseResult` the handler passes to `complete` for the parsed request.
The completable emits through `on_response` (lines 97-104): `some
response` becomes one write task, `none` writes nothing. -/
def Endpoint.handle_message (parsed_message : Except String Json)
    (handler_result : JsonRpcRequest → Option ResponseResult) :
    List JsonRpcResponse :=
  match parse_jsonrpc_request parsed_message with
  | Except.error error => [JsonRpcResponse.new_error RpcId.Null error]
  | Except.ok rpc_request =>
    match ResponseCompletable.complete rpc_request.id (handler_result rpc_request) with
    | some response => [response]
    | none => []

/-- Method-table lookup of `MapRequestHandler` (jsonrpc.rs lines 346-348,
a `HashMap<String, Box<RpcMethodHandler>>` with unique method names),
modelled as first-match lookup in the entry list. -/
def MapRequestHandler.lookup? {HANDLER : Type} :
    List (String × HANDLER) → String → Option HANDLER
  | [], _ => none
  | (name, h) :: rest, method_name =>
    if name = method_name then some h else MapRequestHandler.lookup? rest method_name

/-- `MapRequestHandler::do_invoke_method`, jsonrpc.rs lines 392-405, with
the completable represented by its original id and the emitted response as
result.  A registered handler is abstracted as the `Option ResponseResult`
it passes to the completable (synchronous typed handlers always complete;
`complete` is applied to their outcome exactly as in the source); an
unregistered method completes with `complete_with_error(MethodNotFound)`. -/
def MapRequestHandler.do_invoke_method
    (method_handlers : List (String × (RequestParams → Option ResponseResult)))
    (method_name : String) (id : Option RpcId) (request_params : RequestParams) :
    Option JsonRpcResponse :=
  match MapRequestHandler.lookup? method_handlers method_name with
  | some method_fn => ResponseCompletable.complete id (method_fn request_params)
  | none => ResponseCompletable.complete_with_error id error_JSON_RPC_MethodNotFound

/-- `BufRead::read_line` on the framer input (lsp_transport.rs line 26):
consume characters up to and including the first newline (or up to end of
input) and return the line and the remaining input.  At end of input the
line is empty and nothing is consumed, which is how `read_line` reports
EOF (it returns `Ok(0)`, not an error). -/
def readLine : List Char → List Char × List Char
  | [] => ([], [])
  | c :: cs =>
    if c = '\n' then ([c], cs)
    else (c :: (readLine cs).1, (readLine cs).2)

/-- The `CONTENT_LENGTH` constant, lsp_transport.rs line 16. -/
def CONTENT_LENGTH : List Char := "Content-Length:".toList

/-- `str::trim` applied at lsp_transport.rs line 30, for the ASCII
whitespace that can occur in a header line (Rust trims Unicode
`White_Space`; `Char.isWhitespace` covers the space, tab, CR and LF
characters reachable here). -/
def rustTrim (s : List Char) : List Char :=
  ((s.dropWhile Char.isWhitespace).reverse.dropWhile Char.isWhitespace).reverse

/-- Value of a decimal digit string. -/
def digitsVal (digits : List Char) : Nat :=
  digits.foldl (fun acc c => acc * 10 + (c.toNat - 48)) 0

/-- `str::parse::<u32>` applied at lsp_transport.rs line 30: an optional
leading plus sign, then one or more decimal digits whose value fits in 32
bits; anything else is a `ParseIntError`, returned as `none`. -/
def parseU32 (s : List Char) : Option Nat :=
  let digits := if s.head? = some '+' then s.tail else s
  if digits.isEmpty then none
  else if digits.all Char.isDigit then
    if digitsVal digits < 4294967296 then some (digitsVal digits) else none
  else none

/-- Outcome of the header loop of `parse_transport_message`
(lsp_transport.rs lines 23-37). -/
inductive HeaderOutcome where
  | done (content_length : Nat) (rest : List Char)
  | intParseError
  | hang

/-- One transcription of the header loop, recursing on an explicit bound:
the loop body reads a line; a line with the `Content-Length:` prefix
updates the length (a failed integer parse propagates through `try!` as
`intParseError`); the line `"\r\n"` breaks out with the current length and
the remaining input; any other line is ignored.  The first pattern is the
loop at end of input: `read_line` then returns an empty line forever, so
the loop never exits — reported as `hang`.  The zero-bound fallback is
unreachable from `headerPhase`, which supplies bound `input.length` while
every iteration on nonempty input consumes at least one character. -/
def headerPhaseAux : Nat → List Char → Nat → HeaderOutcome
  | _, [], _ => HeaderOutcome.hang
  | 0, _ :: _, _ => HeaderOutcome.hang
  | fuel + 1, c :: cs, content_length =>
    if CONTENT_LENGTH.isPrefixOf (readLine (c :: cs)).1 then
      match parseU32 (rustTrim ((readLine (c :: cs)).1.drop CONTENT_LENGTH.length)) with
      | some n => headerPhaseAux fuel (readLine (c :: cs)).2 n
      | none => HeaderOutcome.intParseError
    else if (readLine (c :: cs)).1 = ['\r', '\n'] then
      HeaderOutcome.done content_length (readLine (c :: cs)).2
    else headerPhaseAux fuel (readLine (c :: cs)).2 content_length

/-- The header loop of `parse_transport_message`, lsp_transport.rs lines
21-37, starting from `content_length = 0`. -/
def headerPhase (input : List Char) (content_length : Nat) : HeaderOutcome :=
  headerPhaseAux input.length input content_length

/-- The header loop transcribed with an iteration budget: `none` means the
loop has not exited after `fuel` iterations.  Unlike `headerPhaseAux` this
version treats end of input exactly as the source does — `read_line`
yields an empty line and the loop just runs again — so proving the result
is `none` for every budget proves the loop never terminates. -/
def headerPhaseIter : Nat → List Char → Nat → Option HeaderOutcome
  | 0, _, _ => none
  | fuel + 1, input, content_length =>
    if CONTENT_LENGTH.isPrefixOf (readLine input).1 then
      match parseU32 (rustTrim ((readLine input).1.drop CONTENT_LENGTH.length)) with
      | some n => headerPhaseIter fuel (readLine input).2 n
      | none => some HeaderOutcome.intParseError
    else if (readLine input).1 = ['\r', '\n'] then
      some (HeaderOutcome.done content_length (readLine input).2)
    else headerPhaseIter fuel (readLine input).2 content_length

/-- Result of `parse_transport_message`: the returned payload and the rest
of the stream, a `GError` with its message, a propagated integer-parse
error, or divergence of the header loop. -/
inductive TransportResult where
  | ok (message : String) (rest : List Char)
  | err (error_message : String)
  | intParseError
  | hang

/-- `parse_transport_message`, lsp_transport.rs lines 18-46: run the header
loop; a zero (never set) content length fails with the message built from
`CONTENT_LENGTH + " not defined or invalid."`; otherwise read exactly
`content_length` characters through the `take` adapter (fewer if the
stream ends first) and return them, leaving the rest unread. -/
def parse_transport_message (input : List Char) : TransportResult :=
  match headerPhase input 0 with
  | HeaderOutcome.hang => TransportResult.hang
  | HeaderOutcome.intParseError => TransportResult.intParseError
  | HeaderOutcome.done content_length rest =>
    if content_length = 0 then
      TransportResult.err "Content-Length: not defined or invalid."
    else
      TransportResult.ok (String.mk (rest.take content_length)) (rest.drop content_length)

/-- Shape of one header line as the claims quantify over them: a nonempty
line whose only newline is its final character (the body may end with a
carriage return, as the CRLF wire format prescribes). -/
def isHeaderLine (line : List Char) : Bool :=
  line.getLast? == some '\n' && !(line.dropLast.contains '\n')

/-! Supporting lemmas about the framer header loop. -/

theorem readLine_snd_le (s : List Char) : (readLine s).2.length ≤ s.length := by
  induction s with
  | nil => simp [readLine]
  | cons c cs ih =>
    simp only [readLine]
    split
    · simp
    · exact Nat.le_succ_of_le ih

theorem readLine_snd_le_cons (c : Char) (cs : List Char) :
    (readLine (c :: cs)).2.length ≤ cs.length := by
  simp only [readLine]
  split
  · simp
  · exact readLine_snd_le cs

/-- `read_line` on input that contains a newline: the line is everything up
to and including the first newline, and the rest is untouched. -/
theorem readLine_line (s rest : List Char) (hnl : '\n' ∉ s) :
    readLine (s ++ '\n' :: rest) = (s ++ ['\n'], rest) := by
  induction s with
  | nil => simp [readLine]
  | cons a as ih =>
    have ha : ¬(a = '\n') := fun h => hnl (h ▸ List.mem_cons_self a as)
    have has : '\n' ∉ as := fun h => hnl (List.mem_cons_of_mem a h)
    simp [readLine, ha, ih has]

/-- The internal bound of `headerPhaseAux` is irrelevant as long as it
dominates the input length: any such bound computes `headerPhase`. -/
theorem headerPhaseAux_eq_headerPhase (f : Nat) :
    ∀ (input : List Char) (content_length : Nat), input.length ≤ f →
      headerPhaseAux f input content_length = headerPhase input content_length := by
  induction f using Nat.strong_induction_on with
  | _ f ih =>
    intro input content_length h
    match f, input with
    | f, [] =>
      cases f <;> rfl
    | f + 1, c :: cs =>
      have hle : (readLine (c :: cs)).2.length ≤ cs.length := readLine_snd_le_cons c cs
      have hcs : cs.length ≤ f := Nat.le_of_succ_le_succ h
      have e1 : ∀ n, headerPhaseAux f (readLine (c :: cs)).2 n =
          headerPhase (readLine (c :: cs)).2 n := fun n =>
        ih f (Nat.lt_succ_self f) (readLine (c :: cs)).2 n (le_trans hle hcs)
      have e2 : ∀ n, headerPhaseAux cs.length (readLine (c :: cs)).2 n =
          headerPhase (readLine (c :: cs)).2 n := fun n =>
        ih cs.length (Nat.lt_succ_of_le hcs) (readLine (c :: cs)).2 n hle
      show _ = headerPhaseAux (c :: cs).length (c :: cs) content_length
      simp only [List.length_cons, headerPhaseAux, e1, e2]

/-- One unfolding of the header loop on nonempty input. -/
theorem headerPhase_cons (c : Char) (cs : List Char) (content_length : Nat) :
    headerPhase (c :: cs) content_length =
      if CONTENT_LENGTH.isPrefixOf (readLine (c :: cs)).1 then
        match parseU32 (rustTrim ((readLine (c :: cs)).1.drop CONTENT_LENGTH.length)) with
        | some n => headerPhase (readLine (c :: cs)).2 n
        | none => HeaderOutcome.intParseError
      else if (readLine (c :: cs)).1 = ['\r', '\n'] then
        HeaderOutcome.done content_length (readLine (c :: cs)).2
      else headerPhase (readLine (c :: cs)).2 content_length := by
  have e : ∀ n, headerPhaseAux cs.length (readLine (c :: cs)).2 n =
      headerPhase (readLine (c :: cs)).2 n := fun n =>
    headerPhaseAux_eq_headerPhase cs.length (readLine (c :: cs)).2 n
      (readLine_snd_le_cons c cs)
  show headerPhaseAux (c :: cs).length (c :: cs) content_length = _
  simp only [List.length_cons, headerPhaseAux, e]

/-- One unfolding of the header loop on a full header line (content `s`
followed by the newline), in terms of the loop branch conditions the
source tests on that line. -/
theorem headerPhase_line (s rest : List Char) (content_length : Nat) (hnl : '\n' ∉ s) :
    headerPhase (s ++ '\n' :: rest) content_length =
      if CONTENT_LENGTH.isPrefixOf (s ++ ['\n']) then
        match parseU32 (rustTrim ((s ++ ['\n']).drop CONTENT_LENGTH.length)) with
        | some n => headerPhase rest n
        | none => HeaderOutcome.intParseError
      else if s ++ ['\n'] = ['\r', '\n'] then HeaderOutcome.done content_length rest
      else headerPhase rest content_length := by
  cases s with
  | nil =>
    have hr : readLine ('\n' :: rest) = (['\n'], rest) := by simp [readLine]
    rw [List.nil_append, headerPhase_cons, hr]
    rfl
  | cons a as =>
    have hr : readLine ((a :: as) ++ '\n' :: rest) = ((a :: as) ++ ['\n'], rest) :=
      readLine_line (a :: as) rest hnl
    rw [List.cons_append, headerPhase_cons, ← List.cons_append, hr]

/-- A header line that neither carries the `Content-Length:` prefix nor is
the empty line is read and ignored. -/
theorem headerPhase_skip (s rest : List Char) (content_length : Nat) (hnl : '\n' ∉ s)
    (hcl : CONTENT_LENGTH.isPrefixOf (s ++ ['\n']) = false)
    (hne : s ++ ['\n'] ≠ ['\r', '\n']) :
    headerPhase (s ++ '\n' :: rest) content_length = headerPhase rest content_length := by
  rw [headerPhase_line s rest content_length hnl, hcl]
  simp [hne]

/-- A `Content-Length:` header line whose remainder parses updates the
loop state to the parsed length. -/
theorem headerPhase_content_length (s rest : List Char) (content_length n : Nat)
    (hnl : '\n' ∉ s)
    (hcl : CONTENT_LENGTH.isPrefixOf (s ++ ['\n']) = true)
    (hp : parseU32 (rustTrim ((s ++ ['\n']).drop CONTENT_LENGTH.length)) = some n) :
    headerPhase (s ++ '\n' :: rest) content_length = headerPhase rest n := by
  rw [headerPhase_line s rest content_length hnl, hcl, hp]
  rfl

/-- The empty header line `"\r\n"` breaks out of the loop with the current
length and the unread rest of the stream. -/
theorem headerPhase_break (rest : List Char) (content_length : Nat) :
    headerPhase ('\r' :: '\n' :: rest) content_length =
      HeaderOutcome.done content_length rest := by
  have h := headerPhase_line ['\r'] rest content_length (by decide)
  simp only [List.cons_append, List.nil_append] at h
  have hfalse : CONTENT_LENGTH.isPrefixOf ['\r', '\n'] = false := by decide
  rw [h, hfalse]
  simp

theorem headerPhaseIter_nil (fuel content_length : Nat) :
    headerPhaseIter fuel [] content_length = none := by
  induction fuel generalizing content_length with
  | zero => rfl
  | succ fuel ih =>
    have h1 : CONTENT_LENGTH.isPrefixOf (readLine ([] : List Char)).1 = false := by decide
    have h2 : ¬((readLine ([] : List Char)).1 = ['\r', '\n']) := by decide
    simp only [headerPhaseIter, h1, Bool.false_eq_true, if_false, if_neg h2]
    exact ih content_length

/-- Soundness of the `hang` outcome: whenever `headerPhase` reports `hang`,
the header loop has not exited after any number of iterations. -/
theorem headerPhase_hang_iter (fuel : Nat) (input : List Char) (content_length : Nat)
    (h : headerPhase input content_length = HeaderOutcome.hang) :
    headerPhaseIter fuel input content_length = none := by
  induction fuel generalizing input content_length with
  | zero => rfl
  | succ fuel ih =>
    cases input with
    | nil => exact headerPhaseIter_nil (fuel + 1) content_length
    | cons c cs =>
      rw [headerPhase_cons] at h
      simp only [headerPhaseIter]
      cases hcl : CONTENT_LENGTH.isPrefixOf (readLine (c :: cs)).1 with
      | true =>
        rw [hcl] at h
        simp only [if_true] at h ⊢
        cases hu : parseU32 (rustTrim ((readLine (c :: cs)).1.drop CONTENT_LENGTH.length)) with
        | some n =>
          rw [hu] at h
          exact ih _ _ h
        | none =>
          rw [hu] at h
          exact absurd h (by simp)
      | false =>
        rw [hcl] at h
        simp only [Bool.false_eq_true, if_false] at h ⊢
        by_cases heq : (readLine (c :: cs)).1 = ['\r', '\n']
        · rw [if_pos heq] at h
          exact absurd h (by simp)
        · rw [if_neg heq] at h ⊢
          exact ih _ _ h

theorem isHeaderLine_iff (line : List Char) :
    isHeaderLine line = true ↔ ∃ s, line = s ++ ['\n'] ∧ '\n' ∉ s := by
  constructor
  · intro h
    simp only [isHeaderLine, Bool.and_eq_true] at h
    obtain ⟨h1, h2⟩ := h
    have h1' : line.getLast? = some '\n' := by simpa using h1
    have hne : line ≠ [] := by
      intro he
      rw [he] at h1'
      simp at h1'
    refine ⟨line.dropLast, ?_, ?_⟩
    · have hlast : line.getLast hne = '\n' := by
        have := List.getLast?_eq_getLast line hne
        rw [h1'] at this
        exact (Option.some.inj this).symm
      conv_lhs => rw [← List.dropLast_append_getLast hne]
      rw [hlast]
    · simpa using h2
  · rintro ⟨s, rfl, hnl⟩
    unfold isHeaderLine
    simp [List.getLast?_concat, List.dropLast_concat, hnl]

theorem not_whitespace_of_isDigit (c : Char) (h : c.isDigit = true) :
    c.isWhitespace = false := by
  simp only [Char.isDigit, Bool.and_eq_true, decide_eq_true_eq] at h
  obtain ⟨h1, h2⟩ := h
  cases hw : c.isWhitespace with
  | false => rfl
  | true =>
    exfalso
    simp only [Char.isWhitespace, Bool.or_eq_true, decide_eq_true_eq] at hw
    rcases hw with ((rfl | rfl) | rfl) | rfl <;> exact absurd h1 (by decide)

/-- `trim` on the remainder of a well-formed Content-Length header line:
one leading space, the digit string, then the CRLF. -/
theorem rustTrim_header_value (digits : List Char) (hd : digits ≠ [])
    (hdig : ∀ c ∈ digits, c.isDigit = true) :
    rustTrim (' ' :: (digits ++ ['\r', '\n'])) = digits := by
  obtain ⟨d, ds, rfl⟩ : ∃ d ds, digits = d :: ds := by
    cases digits with
    | nil => exact absurd rfl hd
    | cons d ds => exact ⟨d, ds, rfl⟩
  have hws0 : d.isWhitespace = false :=
    not_whitespace_of_isDigit d (hdig d (List.mem_cons_self d ds))
  unfold rustTrim
  have h1 : List.dropWhile Char.isWhitespace (' ' :: ((d :: ds) ++ ['\r', '\n'])) =
      (d :: ds) ++ ['\r', '\n'] := by
    rw [List.dropWhile_cons_of_pos (by decide), List.cons_append,
      List.dropWhile_cons_of_neg (by simp [hws0])]
  rw [h1]
  have h2 : List.dropWhile Char.isWhitespace (((d :: ds) ++ ['\r', '\n']).reverse) =
      (d :: ds).reverse := by
    rw [List.reverse_append]
    simp only [show (['\r', '\n'] : List Char).reverse = ['\n', '\r'] from rfl,
      List.cons_append, List.nil_append]
    rw [List.dropWhile_cons_of_pos (by decide), List.dropWhile_cons_of_pos (by decide)]
    cases hrev : (d :: ds).reverse with
    | nil => simp at hrev
    | cons b bs =>
      have hb : b ∈ (d :: ds) := by
        rw [← List.mem_reverse, hrev]
        exact List.mem_cons_self b bs
      rw [List.dropWhile_cons_of_neg
        (by simp [not_whitespace_of_isDigit b (hdig b hb)])]
  rw [h2, List.reverse_reverse]

/-- `str::parse::<u32>` accepts a nonempty all-digit string whose value
fits. -/
theorem parseU32_digits (digits : List Char) (hd : digits ≠ [])
    (hdig : ∀ c ∈ digits, c.isDigit = true) (h32 : digitsVal digits < 4294967296) :
    parseU32 digits = some (digitsVal digits) := by
  obtain ⟨d, ds, rfl⟩ : ∃ d ds, digits = d :: ds := by
    cases digits with
    | nil => exact absurd rfl hd
    | cons d ds => exact ⟨d, ds, rfl⟩
  have hplus : ¬((d :: ds).head? = some '+') := by
    simp only [List.head?_cons, Option.some.injEq]
    rintro rfl
    exact absurd (hdig '+' (List.mem_cons_self _ _)) (by decide)
  unfold parseU32
  rw [if_neg hplus]
  have hempty : (d :: ds).isEmpty = false := rfl
  have hall : (d :: ds).all Char.isDigit = true := List.all_eq_true.mpr hdig
  simp only [hempty, Bool.false_eq_true, if_false, hall, if_true, if_pos h32]

/-- Header lines that are neither the Content-Length header nor the empty
line are read and ignored, in sequence. -/
theorem headerPhase_skip_join (extras : List (List Char))
    (hex : ∀ line ∈ extras, isHeaderLine line = true ∧
      CONTENT_LENGTH.isPrefixOf line = false ∧ line ≠ ['\r', '\n'])
    (tail : List Char) (content_length : Nat) :
    headerPhase (extras.flatten ++ tail) content_length = headerPhase tail content_length := by
  induction extras with
  | nil => simp
  | cons line rest ih =>
    obtain ⟨hline, hcl, hne⟩ := hex line (List.mem_cons_self _ _)
    obtain ⟨s, rfl, hnl⟩ := (isHeaderLine_iff line).mp hline
    have hrest := fun l hl => hex l (List.mem_cons_of_mem _ hl)
    rw [List.flatten_cons, List.append_assoc, List.append_assoc, List.singleton_append,
      headerPhase_skip s _ _ hnl hcl hne, ih hrest]

/-- Header lines that either are not Content-Length headers or carry a
zero value leave the loop state at zero. -/
theorem headerPhase_skip_join_zero (extras : List (List Char))
    (hex : ∀ line ∈ extras, isHeaderLine line = true ∧ line ≠ ['\r', '\n'] ∧
      (CONTENT_LENGTH.isPrefixOf line = false ∨
        parseU32 (rustTrim (line.drop CONTENT_LENGTH.length)) = some 0))
    (tail : List Char) :
    headerPhase (extras.flatten ++ tail) 0 = headerPhase tail 0 := by
  induction extras with
  | nil => simp
  | cons line rest ih =>
    obtain ⟨hline, hne, hdisj⟩ := hex line (List.mem_cons_self _ _)
    obtain ⟨s, rfl, hnl⟩ := (isHeaderLine_iff line).mp hline
    have hrest := fun l hl => hex l (List.mem_cons_of_mem _ hl)
    rw [List.flatten_cons, List.append_assoc, List.append_assoc, List.singleton_append]
    cases hcl : CONTENT_LENGTH.isPrefixOf (s ++ ['\n']) with
    | false => rw [headerPhase_skip s _ 0 hnl hcl hne, ih hrest]
    | true =>
      rcases hdisj with h | hp
      · rw [hcl] at h
        exact absurd h (by simp)
      · rw [headerPhase_content_length s _ 0 0 hnl hcl hp, ih hrest]

/-- `parse_transport_message` once the header loop has produced a nonzero
length: return exactly that many characters and leave the rest unread. -/
theorem parse_transport_message_done (input : List Char) (n : Nat) (rest : List Char)
    (h : headerPhase input 0 = HeaderOutcome.done n rest) (hn : n ≠ 0) :
    parse_transport_message input =
      TransportResult.ok (String.mk (rest.take n)) (rest.drop n) := by
  unfold parse_transport_message
  rw [h]
  show (if n = 0 then TransportResult.err "Content-Length: not defined or invalid."
    else TransportResult.ok (String.mk (rest.take n)) (rest.drop n)) =
    TransportResult.ok (String.mk (rest.take n)) (rest.drop n)
  exact if_neg hn

/-! Claim theorems. -/

/-- C3: for a completable created with original id `I`, `complete(rpc_result)`
behaves by cases — `rpc_result = None` invokes the callback with `None` and
emits no response; `Some r` with `I = Some id` invokes the callback with the
response `{id, result_or_error = r}`; `Some r` with `I = None` invokes the
callback with an error response of id `Null` and
InvalidRequest "Property `id` not provided for request.". -/
theorem complete_case_analysis :
    (∀ id : Option RpcId, ResponseCompletable.complete id none = none)
    ∧ (∀ (id : RpcId) (r : ResponseResult),
        ResponseCompletable.complete (some id) (some r) =
          some { id := id, result_or_error := r })
    ∧ (∀ r : ResponseResult,
        ResponseCompletable.complete none (some r) =
          some (JsonRpcResponse.new_error RpcId.Null
            (error_JSON_RPC_InvalidRequest "Property `id` not provided for request."))) :=
  ⟨fun id => by cases id <;> rfl, fun _ _ => rfl, fun _ => rfl⟩

/-- C6: for every input that is not valid JSON (the JSON library rejects it
with diagnostic `error`), `handle_message` submits exactly one outbound
response, with id `Null`, error code -32700, and a message that starts with
"Invalid JSON was received by the server:"; the endpoint recovers (the
handler is never consulted, and no other effect occurs). -/
theorem handle_message_invalid_json (error : String)
    (handler_result : JsonRpcRequest → Option ResponseResult) :
    Endpoint.handle_message (Except.error error) handler_result =
      [JsonRpcResponse.new_error RpcId.Null
        { code := -32700,
          message := "Invalid JSON was received by the server: " ++ error,
          data := none }]
    ∧ ∃ rest, "Invalid JSON was received by the server: " ++ error =
        "Invalid JSON was received by the server:" ++ rest := by
  refine ⟨rfl, " " ++ error, ?_⟩
  rw [← String.append_assoc]
  rfl

/-- C7: a request dispatched through `MapRequestHandler` whose method name
has no registered handler is completed with an error response carrying the
request id, code -32601, and message
"The method does not exist / is not available.". -/
theorem do_invoke_method_not_found
    (method_handlers : List (String × (RequestParams → Option ResponseResult)))
    (method_name : String) (id : RpcId) (request_params : RequestParams)
    (h : MapRequestHandler.lookup? method_handlers method_name = none) :
    MapRequestHandler.do_invoke_method method_handlers method_name (some id) request_params =
      some ⟨id, ResponseResult.Error
        ⟨-32601, "The method does not exist / is not available.", none⟩⟩ := by
  unfold MapRequestHandler.do_invoke_method
  rw [h]
  rfl

/-- Witness for C7: an empty dispatch table has no handler for "m", and the
dispatched request with id 1 is completed with the MethodNotFound error. -/
theorem do_invoke_method_not_found_witness :
    MapRequestHandler.lookup?
        ([] : List (String × (RequestParams → Option ResponseResult))) "m" = none
    ∧ MapRequestHandler.do_invoke_method [] "m" (some (RpcId.Number 1)) RequestParams.None =
      some ⟨RpcId.Number 1, ResponseResult.Error
        ⟨-32601, "The method does not exist / is not available.", none⟩⟩ :=
  ⟨rfl, do_invoke_method_not_found [] "m" (RpcId.Number 1) RequestParams.None rfl⟩

/-- C8: `sync_handle_request` on a completable with a present id — when
decoding the params value (`Object` as object, `Array` as array, `None` as
null, via `into_value`) fails with diagnostic `error`, the completable is
completed with an InvalidParams (-32602) error whose message carries the
decoder diagnostic, and the handler is never invoked (the outcome is the
same for every handler); when decoding succeeds the handler runs and its
service result is mapped into the response (`Ok` to a `result`, a service
error to a wire error with the widened code, message, and serialized
data). -/
theorem sync_handle_request_decode_behavior {PARAMS RET RET_ERROR : Type}
    (deserializeParams : Json → Except String PARAMS)
    (serializeRet : RET → Json) (serializeErrData : RET_ERROR → Json)
    (id : RpcId) (params : RequestParams) :
    (∀ error, deserializeParams params.into_value = Except.error error →
      ∀ method_fn : PARAMS → ServiceResult RET RET_ERROR,
        ResponseCompletable.sync_handle_request (some id) deserializeParams
            serializeRet serializeErrData params method_fn =
          some ⟨id, ResponseResult.Error
            ⟨-32602, "Invalid method parameter(s): " ++ error, none⟩⟩)
    ∧ (∀ p, deserializeParams params.into_value = Except.ok p →
      ∀ method_fn : PARAMS → ServiceResult RET RET_ERROR,
        ResponseCompletable.sync_handle_request (some id) deserializeParams
            serializeRet serializeErrData params method_fn =
          some ⟨id,
            match method_fn p with
            | Except.ok ret => ResponseResult.Result (serializeRet ret)
            | Except.error e => ResponseResult.Error
                ⟨(e.code : Int), e.message, some (serializeErrData e.data)⟩⟩) := by
  constructor
  · intro error herr method_fn
    simp only [ResponseCompletable.sync_handle_request, invoke_method_with_fn, herr]
    rfl
  · intro p hok method_fn
    simp only [ResponseCompletable.sync_handle_request, invoke_method_with_fn, hok]
    cases method_fn p <;> rfl

/-- Witness for C8: with a decoder that rejects every value the completable
is completed with the decoder message inside an InvalidParams error, and
with a decoder that accepts, the handler result "null" is returned. -/
theorem sync_handle_request_decode_behavior_witness :
    ResponseCompletable.sync_handle_request (some (RpcId.Number 1))
        (fun _ => (Except.error "bad" : Except String Unit)) (fun _ : Unit => Json.null)
        (fun _ : Unit => Json.null) RequestParams.None (fun _ => Except.ok ()) =
      some ⟨RpcId.Number 1, ResponseResult.Error
        ⟨-32602, "Invalid method parameter(s): bad", none⟩⟩
    ∧ ResponseCompletable.sync_handle_request (some (RpcId.Number 1))
        (fun _ => (Except.ok () : Except String Unit)) (fun _ : Unit => Json.null)
        (fun _ : Unit => Json.null) RequestParams.None (fun _ => Except.ok ()) =
      some ⟨RpcId.Number 1, ResponseResult.Result Json.null⟩ :=
  ⟨(sync_handle_request_decode_behavior (fun _ => (Except.error "bad" : Except String Unit))
      (fun _ : Unit => Json.null) (fun _ : Unit => Json.null) (RpcId.Number 1)
      RequestParams.None).1 "bad" rfl (fun _ => Except.ok ()),
   (sync_handle_request_decode_behavior (fun _ => (Except.ok () : Except String Unit))
      (fun _ : Unit => Json.null) (fun _ : Unit => Json.null) (RpcId.Number 1)
      RequestParams.None).2 () rfl (fun _ => Except.ok ())⟩

/-- C10: a notification (completable with id `None`) handled through
`sync_handle_notification` whose params fail to decode emits exactly one
error response — not silence and not InvalidParams: the response has id
`Null`, code -32600, and the InvalidRequest message
"The JSON sent is not a valid Request object: Property `id` not provided
for request." (which contains the claimed substring); the decode
diagnostic `error` does not appear — the conclusion is independent of it. -/
theorem sync_handle_notification_decode_failure {PARAMS : Type}
    (deserializeParams : Json → Except String PARAMS) (params : RequestParams)
    (method_fn : PARAMS → Unit) (error : String)
    (h : deserializeParams params.into_value = Except.error error) :
    ResponseCompletable.sync_handle_notification none deserializeParams params method_fn =
      some ⟨RpcId.Null, ResponseResult.Error
        ⟨-32600, "The JSON sent is not a valid Request object: " ++
          "Property `id` not provided for request.", none⟩⟩ := by
  simp only [ResponseCompletable.sync_handle_notification, invoke_method_with_fn, h]
  rfl

/-- Witness for C10: a decoder rejecting every value, on a notification. -/
theorem sync_handle_notification_decode_failure_witness :
    ResponseCompletable.sync_handle_notification none
        (fun _ => (Except.error "bad" : Except String Unit)) RequestParams.None
        (fun _ => ()) =
      some ⟨RpcId.Null, ResponseResult.Error
        ⟨-32600, "The JSON sent is not a valid Request object: " ++
          "Property `id` not provided for request.", none⟩⟩ :=
  sync_handle_notification_decode_failure (fun _ => Except.error "bad")
    RequestParams.None (fun _ => ()) "bad" rfl

/-- C1 counterexample: the request with id `Some(RpcId::Null)` does not
round-trip — its wire form carries `"id": null`, and `parse_jsonrpc_id`
maps a JSON null id to `None`, so parsing yields the request with no id. -/
theorem parse_serialize_null_id_cex :
    parse_jsonrpc_request (Except.ok (JsonRpcRequest.serialize
        { id := some RpcId.Null, method := "m", params := RequestParams.None })) ≠
      Except.ok { id := some RpcId.Null, method := "m", params := RequestParams.None } := by
  intro h
  have h1 : (Except.ok { id := none, method := "m", params := RequestParams.None } :
      Except RpcError JsonRpcRequest) =
      Except.ok { id := some RpcId.Null, method := "m", params := RequestParams.None } := h
  injection h1 with h2
  injection h2 with h3 h4 h5
  exact Option.noConfusion h3

/-- C1 (amended): parsing the serialized wire form is a left inverse of
serialization for every `JsonRpcRequest` whose id is not `Some(Null)` —
any of no id, a `Number` id, or a `String` id, any method string, and
`Object`, `Array`, or `None` params.  (A request with id `Some(Null)`
serializes to `"id": null`, which parses back as no id.) -/
theorem parse_serialize_roundtrip (r : JsonRpcRequest) (h : r.id ≠ some RpcId.Null) :
    parse_jsonrpc_request (Except.ok r.serialize) = Except.ok r := by
  obtain ⟨id, method, params⟩ := r
  cases id with
  | none => cases params <;> rfl
  | some i =>
    cases i with
    | Number n => cases params <;> rfl
    | String s => cases params <;> rfl
    | Null => exact absurd rfl h

/-- Witness for C1: a concrete request with a number id round-trips. -/
theorem parse_serialize_roundtrip_witness :
    (({ id := some (RpcId.Number 1), method := "m", params := RequestParams.None } :
        JsonRpcRequest).id ≠ some RpcId.Null)
    ∧ parse_jsonrpc_request (Except.ok (JsonRpcRequest.serialize
        { id := some (RpcId.Number 1), method := "m", params := RequestParams.None })) =
      Except.ok { id := some (RpcId.Number 1), method := "m", params := RequestParams.None } :=
  ⟨by decide,
   parse_serialize_roundtrip
     { id := some (RpcId.Number 1), method := "m", params := RequestParams.None }
     (by decide)⟩

/-- C2 counterexample: an inbound request with the signed integer id -1
(wire value `I64(-1)`) is accepted, its handler completes with a result,
and the single outbound response carries id `Number(2^64 - 1)` — the
`as u64` wraparound at jsonrpc_objects.rs line 324 — whose wire
serialization is not the inbound id -1. -/
theorem handle_message_negative_id_cex :
    Endpoint.handle_message (Except.ok (Json.obj [("id", Json.i64 (-1)),
        ("jsonrpc", Json.str "2.0"), ("method", Json.str "m"), ("params", Json.null)]))
      (fun _ => some (ResponseResult.Result Json.null)) =
      [{ id := RpcId.Number 18446744073709551615,
         result_or_error := ResponseResult.Result Json.null }]
    ∧ RpcId.serialize (RpcId.Number 18446744073709551615) ≠ Json.i64 (-1) :=
  ⟨rfl, fun h => Json.noConfusion h⟩

/-- C2 (amended): for every inbound request object that `handle_message`
accepts and whose handler completes with result-or-error `rr`, the single
outbound response echoes the request id: exactly for an unsigned integer
id (`U64 n` gives `Number n`) and for a string id; a signed (negative)
integer id `I64 x` is narrowed `as u64`, so the response carries
`Number(x mod 2^64)` instead of `x`; and when no valid id can be extracted
(id neither integer, string, nor null — here a boolean) the single
outbound response carries id `Null`. -/
theorem handle_message_response_id (method : String) (params : RequestParams)
    (rr : ResponseResult) :
    (∀ n : Nat, Endpoint.handle_message (Except.ok (Json.obj [("id", Json.u64 n),
        ("jsonrpc", Json.str "2.0"), ("method", Json.str method),
        ("params", params.into_value)])) (fun _ => some rr) =
      [{ id := RpcId.Number n, result_or_error := rr }])
    ∧ (∀ s : String, Endpoint.handle_message (Except.ok (Json.obj [("id", Json.str s),
        ("jsonrpc", Json.str "2.0"), ("method", Json.str method),
        ("params", params.into_value)])) (fun _ => some rr) =
      [{ id := RpcId.String s, result_or_error := rr }])
    ∧ (∀ x : Int, Endpoint.handle_message (Except.ok (Json.obj [("id", Json.i64 x),
        ("jsonrpc", Json.str "2.0"), ("method", Json.str method),
        ("params", params.into_value)])) (fun _ => some rr) =
      [{ id := RpcId.Number ((x % (2 ^ 64 : Int)).toNat), result_or_error := rr }])
    ∧ (∀ b : Bool, Endpoint.handle_message (Except.ok (Json.obj [("id", Json.bool b),
        ("jsonrpc", Json.str "2.0"), ("method", Json.str method),
        ("params", params.into_value)])) (fun _ => some rr) =
      [JsonRpcResponse.new_error RpcId.Null
        (error_JSON_RPC_InvalidRequest "Property `id` not a String or integer.")]) := by
  refine ⟨fun n => ?_, fun s => ?_, fun x => ?_, fun b => ?_⟩ <;> cases params <;> rfl

/-- C4: on an input stream that ends before the header section is complete
(here: a Content-Length header line and then EOF), `parse_transport_message`
does not return a fatal error — the header loop diverges: `read_line`
reports EOF as an empty line (`Ok(0)`), which matches neither loop branch,
so the loop runs forever.  The second conjunct makes the divergence exact:
for every iteration budget the loop transcription has not exited. -/
theorem parse_transport_message_eof_hangs :
    parse_transport_message ("Content-Length: 5\r\n".toList) = TransportResult.hang
    ∧ ∀ fuel : Nat, headerPhaseIter fuel ("Content-Length: 5\r\n".toList) 0 = none := by
  constructor
  · rfl
  · intro fuel
    exact headerPhase_hang_iter fuel _ 0 rfl

/-- C5: for an input of the form
`"Content-Length: <digits>\r\n" + headers + "\r\n" + payload + trailing`,
where the digit string denotes `N` with `1 ≤ N < 2^32` (the length is a
`u32` in the source), the extra header lines are proper non-empty lines
that are neither `Content-Length:` headers nor the empty line, and the
payload has exactly `N` characters, the framer returns exactly the payload
— embedded `\r`, `\n`, or NUL characters included, unchanged — ignores the
other header lines, and leaves the stream positioned at `trailing`. -/
theorem parse_transport_message_ok_payload
    (digits : List Char) (hd : digits ≠ []) (hdig : ∀ c ∈ digits, c.isDigit = true)
    (hN1 : 1 ≤ digitsVal digits) (hN32 : digitsVal digits < 4294967296)
    (extras : List (List Char))
    (hex : ∀ line ∈ extras, isHeaderLine line = true ∧
      CONTENT_LENGTH.isPrefixOf line = false ∧ line ≠ ['\r', '\n'])
    (payload trailing : List Char) (hp : payload.length = digitsVal digits) :
    parse_transport_message ((CONTENT_LENGTH ++ (' ' :: (digits ++ ['\r']))) ++ '\n' ::
        (extras.flatten ++ ('\r' :: '\n' :: (payload ++ trailing)))) =
      TransportResult.ok (String.mk payload) trailing := by
  have hnldig : '\n' ∉ digits := fun hmem =>
    absurd (hdig '\n' hmem) (by decide)
  have hnl : '\n' ∉ CONTENT_LENGTH ++ (' ' :: (digits ++ ['\r'])) := by
    intro hmem
    rcases List.mem_append.mp hmem with h | h
    · exact absurd h (by decide)
    · rcases List.mem_cons.mp h with h | h
      · exact absurd h (by decide)
      · rcases List.mem_append.mp h with h | h
        · exact hnldig h
        · exact absurd h (by decide)
  have hpre : CONTENT_LENGTH.isPrefixOf
      ((CONTENT_LENGTH ++ (' ' :: (digits ++ ['\r']))) ++ ['\n']) = true := by
    rw [List.append_assoc]
    exact List.isPrefixOf_iff_prefix.mpr (List.prefix_append _ _)
  have hdrop : ((CONTENT_LENGTH ++ (' ' :: (digits ++ ['\r']))) ++ ['\n']).drop
      CONTENT_LENGTH.length = ' ' :: (digits ++ ['\r', '\n']) := by
    rw [List.append_assoc, List.drop_left]
    simp [List.append_assoc]
  have hparse : parseU32 (rustTrim (((CONTENT_LENGTH ++ (' ' :: (digits ++ ['\r']))) ++
      ['\n']).drop CONTENT_LENGTH.length)) = some (digitsVal digits) := by
    rw [hdrop, rustTrim_header_value digits hd hdig, parseU32_digits digits hd hdig hN32]
  have hhdr : headerPhase ((CONTENT_LENGTH ++ (' ' :: (digits ++ ['\r']))) ++ '\n' ::
      (extras.flatten ++ ('\r' :: '\n' :: (payload ++ trailing)))) 0 =
      HeaderOutcome.done (digitsVal digits) (payload ++ trailing) := by
    rw [headerPhase_content_length _ _ 0 _ hnl hpre hparse,
      headerPhase_skip_join extras hex _ _, headerPhase_break]
  rw [parse_transport_message_done _ _ _ hhdr (by omega), ← hp,
    List.take_left, List.drop_left]

/-- Witness for C5: the spec scenario with an extra header and embedded
CRLF — content length 13, header `Blaah-Blah`, payload `1234\n567\r\n890`,
trailing `abcdef`. -/
theorem parse_transport_message_ok_payload_witness :
    parse_transport_message ((CONTENT_LENGTH ++ (' ' :: (['1', '3'] ++ ['\r']))) ++ '\n' ::
        (["Blaah-Blah\r\n".toList].flatten ++ ('\r' :: '\n' ::
          ("1234\n567\r\n890".toList ++ "abcdef".toList)))) =
      TransportResult.ok (String.mk "1234\n567\r\n890".toList) "abcdef".toList :=
  parse_transport_message_ok_payload ['1', '3'] (by decide) (by decide) (by decide)
    (by decide) ["Blaah-Blah\r\n".toList] (by decide) "1234\n567\r\n890".toList
    "abcdef".toList (by decide)

/-- C9: when the header section completes (the empty `"\r\n"` line is
reached) and every header line before it either does not start with the
case-sensitive `Content-Length:` prefix or parses to length zero, the
framer fails with exactly the message
"Content-Length: not defined or invalid.". -/
theorem parse_transport_message_no_length
    (extras : List (List Char))
    (hex : ∀ line ∈ extras, isHeaderLine line = true ∧ line ≠ ['\r', '\n'] ∧
      (CONTENT_LENGTH.isPrefixOf line = false ∨
        parseU32 (rustTrim (line.drop CONTENT_LENGTH.length)) = some 0))
    (rest : List Char) :
    parse_transport_message (extras.flatten ++ ('\r' :: '\n' :: rest)) =
      TransportResult.err "Content-Length: not defined or invalid." := by
  unfold parse_transport_message
  rw [headerPhase_skip_join_zero extras hex _, headerPhase_break]
  rfl

/-- Witness for C9: an ignored header plus an explicit `Content-Length: 0`
header, then the empty line — the framer rejects with the exact message. -/
theorem parse_transport_message_no_length_witness :
    parse_transport_message (["Blaah\r\n".toList, "Content-Length: 0\r\n".toList].flatten ++
        ('\r' :: '\n' :: "1234".toList)) =
      TransportResult.err "Content-Length: not defined or invalid." :=
  parse_transport_message_no_length ["Blaah\r\n".toList, "Content-Length: 0\r\n".toList]
    (by decide) "1234".toList

end RustLSP
